import Mathlib

/-!
Verification of the `Fragmented` protocol middleware (src/src/proto/fragmented.rs).

The Rust code is shallowly embedded: the `Fragmented<T>` struct's protocol
fields become the `Fragmented` state record; `Stream::poll`'s loop body for a
single upstream message becomes `poll1`; `Sink::poll_complete` becomes
`pollComplete`, whose "frames pushed into the upstream sink" are collected in a
list; repeated polling over a list of upstream messages becomes `pollRun`.
Errors carry the state the struct holds at the moment of the early return, so
"the failing call leaves the state unchanged" is expressible.

External collaborators not present under src/ are modelled from the spec:
the extension decode chain (a payload transform on the synthetic final frame)
and `util::utf8::validate` (incremental UTF-8 validity, i.e. the bytes are a
prefix of valid UTF-8).  `String::from_utf8` is the Rust standard library's
full UTF-8 validation (RFC 3629), embedded as a byte-level automaton.
-/

namespace Twist

/-- OpCode from frame::base (external enumeration); `Close` is the value the
middleware uses as its between-messages sentinel. -/
inductive OpCode
  | Continue
  | Text
  | Binary
  | Close
  | Ping
  | Pong
  | Reserved
  deriving DecidableEq, Repr

/-- Frame from frame::base, restricted to the four fields the middleware reads
or writes: fin, opcode, application_data, payload_length.  Bytes are Nat,
payload_length is a u64 value (a Nat; accumulation reduces mod 2^64). -/
structure Frame where
  fin : Bool
  opcode : OpCode
  application_data : Option (List Nat)
  payload_length : Nat
  deriving DecidableEq, Repr

/-- Classification of a WebSocket message, mirroring the predicate order of
the match in `poll`: is_fragment_start, is_fragment, is_fragment_complete,
is_badfragment, and everything else (`plain`). -/
inductive MsgClass
  | fragmentStart
  | fragment
  | fragmentComplete
  | badFragment
  | plain
  deriving DecidableEq, Repr

/-- WebSocket message (external type): its classification together with the
optional underlying base frame exposed by `msg.base()`. -/
structure WebSocketMsg where
  cls : MsgClass
  base : Option Frame
  deriving DecidableEq, Repr

/-- Protocol state of the `Fragmented` struct (uuid, upstream handle,
extension registries and loggers carry no reassembly state and are kept out;
the extension chain is passed as a function). -/
structure Fragmented where
  started : Bool
  complete : Bool
  opcode : OpCode
  total_length : Nat
  buf : List Nat
  deriving DecidableEq, Repr

/-- Initial state built by `Fragmented::new`. -/
def Fragmented.new : Fragmented :=
  { started := false, complete := false, opcode := OpCode.Close,
    total_length := 0, buf := [] }

/-- Modulus of u64 arithmetic. -/
def U64 : Nat := 2 ^ 64

deriving instance DecidableEq for Except

/-! States of the UTF-8 byte automaton (RFC 3629): `sInit` between code
points, `s1`/`s2`/`s3` expecting that many unrestricted continuation bytes,
and the range-restricted second-byte states for E0/ED/F0/F4 lead bytes. -/

inductive Utf8State
  | sInit
  | s1
  | s2
  | s2E0
  | s2ED
  | s3
  | s3F0
  | s3F4
  | sBad
  deriving DecidableEq, Repr

/-- One byte of UTF-8 validation. -/
def utf8step : Utf8State → Nat → Utf8State
  | .sInit, b =>
    if b < 0x80 then .sInit
    else if b < 0xC2 then .sBad
    else if b ≤ 0xDF then .s1
    else if b = 0xE0 then .s2E0
    else if b < 0xED then .s2
    else if b = 0xED then .s2ED
    else if b ≤ 0xEF then .s2
    else if b = 0xF0 then .s3F0
    else if b ≤ 0xF3 then .s3
    else if b = 0xF4 then .s3F4
    else .sBad
  | .s1, b => if 0x80 ≤ b ∧ b ≤ 0xBF then .sInit else .sBad
  | .s2, b => if 0x80 ≤ b ∧ b ≤ 0xBF then .s1 else .sBad
  | .s2E0, b => if 0xA0 ≤ b ∧ b ≤ 0xBF then .s1 else .sBad
  | .s2ED, b => if 0x80 ≤ b ∧ b ≤ 0x9F then .s1 else .sBad
  | .s3, b => if 0x80 ≤ b ∧ b ≤ 0xBF then .s2 else .sBad
  | .s3F0, b => if 0x90 ≤ b ∧ b ≤ 0xBF then .s2 else .sBad
  | .s3F4, b => if 0x80 ≤ b ∧ b ≤ 0x8F then .s2 else .sBad
  | .sBad, _ => .sBad

/-- Run the UTF-8 automaton over a byte list. -/
def utf8run (l : List Nat) : Utf8State := l.foldl utf8step Utf8State.sInit

/-- Full UTF-8 validity, the success condition of `String::from_utf8`:
every code point is complete and well formed. -/
def validUtf8 (l : List Nat) : Bool := utf8run l == Utf8State.sInit

/-- Modelled from the spec: `util::utf8::validate` (not under src/) performs
"incremental UTF-8 validity checking over the accumulated buffer so far" —
the bytes must be a prefix of valid UTF-8, i.e. the automaton has not
rejected (a trailing incomplete code point is allowed). -/
def utf8validate (l : List Nat) : Bool := !(utf8run l == Utf8State.sBad)

/-- Modelled from the spec: the per-message extension decode chain (the
`PerMessageExtensions` registry is not under src/).  Per the spec it is an
ordered list of transforms "each capable of mutating a frame's payload",
each returning success or a decode failure; the whole chain is modelled as
one composed transform on the frame's application data. -/
def Ext : Type := Option (List Nat) → Except String (Option (List Nat))

/-- Identity (empty) extension chain. -/
def extId : Ext := fun d => Except.ok d

/-- Embedding of `Fragmented::ext_chain_decode`: the chain runs only on a
Text/Binary finish frame. -/
def ext_chain_decode (ext : Ext) (f : Frame) : Except String Frame :=
  if f.fin ∧ (f.opcode = OpCode.Text ∨ f.opcode = OpCode.Binary) then
    match ext f.application_data with
    | Except.ok d => Except.ok { f with application_data := d }
    | Except.error e => Except.error e
  else Except.ok f

/-- Synthetic final frame built in `poll_complete` (lines 185-188 of
fragmented.rs): fin=true, the captured opcode, the accumulated buffer as
application data, total_length as payload length. -/
def synthFrame (st : Fragmented) : Frame :=
  { fin := true, opcode := st.opcode, application_data := some st.buf,
    payload_length := st.total_length }

/-- State reset performed after a successful send (lines 206-209): started,
complete, opcode and buf are reset; total_length is NOT touched by the code. -/
def resetState (st : Fragmented) : Fragmented :=
  { st with started := false, complete := false, opcode := OpCode.Close,
            buf := [] }

/-- Embedding of `Sink::poll_complete` for `Fragmented`: when a fragmented
message is started and complete, build the synthetic frame, run the extension
decode chain, validate UTF-8 for text, send the frame upstream (collected in
the returned list) and reset the state.  An error carries the state as the
struct leaves it. -/
def pollComplete (ext : Ext) (st : Fragmented) :
    Except (String × Fragmented) (Fragmented × List Frame) :=
  if st.started && st.complete then
    match ext_chain_decode ext (synthFrame st) with
    | Except.error e => Except.error (e, st)
    | Except.ok base =>
      if base.opcode = OpCode.Text ∧ base.fin then
        match base.application_data with
        | some app_data =>
          if validUtf8 app_data then Except.ok (resetState st, [base])
          else Except.error ("invalid UTF-8 in text frame", st)
        | none => Except.ok (resetState st, [base])
      else Except.ok (resetState st, [base])
  else Except.ok (st, [])

/-- Accumulation common to the three fragment branches of `poll`: add the
frame's declared payload length to total_length (u64 arithmetic) and extend
the buffer with the application data when present. -/
def accum (st : Fragmented) (base : Frame) : Fragmented :=
  { st with
      total_length := (st.total_length + base.payload_length) % U64,
      buf := st.buf ++ base.application_data.getD [] }

/-- Result of one iteration of the `poll` loop that did not error: the new
state, the frames pushed upstream by the embedded `poll_complete` call, and
the message returned to the caller when the iteration yields instead of
looping on. -/
structure StepRes where
  state : Fragmented
  sent : List Frame
  yielded : Option WebSocketMsg
  deriving DecidableEq, Repr

/-- Embedding of one iteration of the loop in `Stream::poll` for
`Fragmented`, processing a single message pulled from upstream. -/
def poll1 (ext : Ext) (st : Fragmented) (msg : WebSocketMsg) :
    Except (String × Fragmented) StepRes :=
  match msg.cls with
  | MsgClass.fragmentStart =>
    match msg.base with
    | some base =>
      let st1 : Fragmented :=
        { accum st base with opcode := base.opcode, started := true }
      match pollComplete ext st1 with
      | Except.ok (st2, sent) => Except.ok ⟨st2, sent, none⟩
      | Except.error e => Except.error e
    | none => Except.error ("invalid fragment start frame received", st)
  | MsgClass.fragment =>
    if !st.started || st.complete then
      Except.error ("invalid fragment frame received", st)
    else
      match msg.base with
      | some base =>
        let st1 := accum st base
        if st1.opcode = OpCode.Text ∧ st1.total_length < 8096 then
          if utf8validate st1.buf then
            match pollComplete ext st1 with
            | Except.ok (st2, sent) => Except.ok ⟨st2, sent, none⟩
            | Except.error e => Except.error e
          else Except.error ("error during UTF-8 validation", st1)
        else
          match pollComplete ext st1 with
          | Except.ok (st2, sent) => Except.ok ⟨st2, sent, none⟩
          | Except.error e => Except.error e
      | none => Except.error ("invalid fragment frame received", st)
  | MsgClass.fragmentComplete =>
    if !st.started || st.complete then
      Except.error ("invalid fragment complete frame received", st)
    else
      match msg.base with
      | some base =>
        let st1 := accum { st with complete := true } base
        match pollComplete ext st1 with
        | Except.ok (st2, sent) => Except.ok ⟨st2, sent, none⟩
        | Except.error e => Except.error e
      | none => Except.error ("invalid fragment complete frame received", st)
  | MsgClass.badFragment =>
    if st.started && !st.complete then
      Except.error ("invalid opcode for continuation fragment", st)
    else Except.ok ⟨st, [], some msg⟩
  | MsgClass.plain => Except.ok ⟨st, [], some msg⟩

/-- Repeated polling over a list of upstream messages: collects every frame
pushed upstream and every message yielded to the caller, threading the state. -/
def pollRun (ext : Ext) :
    Fragmented → List WebSocketMsg →
    Except (String × Fragmented) (Fragmented × List Frame × List WebSocketMsg)
  | st, [] => Except.ok (st, [], [])
  | st, m :: ms =>
    match poll1 ext st m with
    | Except.error e => Except.error e
    | Except.ok r =>
      match pollRun ext r.state ms with
      | Except.error e => Except.error e
      | Except.ok (st', sent, ys) =>
        Except.ok (st', r.sent ++ sent, r.yielded.toList ++ ys)

/-- Message wrapping a base frame, classified as a fragment start. -/
def startMsg (f : Frame) : WebSocketMsg := ⟨MsgClass.fragmentStart, some f⟩

/-- Message wrapping a base frame, classified as a continuation fragment. -/
def contMsg (f : Frame) : WebSocketMsg := ⟨MsgClass.fragment, some f⟩

/-- Message wrapping a base frame, classified as a final continuation. -/
def finalMsg (f : Frame) : WebSocketMsg := ⟨MsgClass.fragmentComplete, some f⟩

end Twist

namespace Twist

/-! Characterization lemmas for single poll iterations, shared by several
claim proofs below. -/

/-- A fragment-start with a base frame, arriving while no completed message
is pending, is always accepted: opcode overwritten, started set, payload
accumulated, nothing emitted. -/
theorem poll1_start_ok (ext : Ext) (st : Fragmented) (f : Frame)
    (hc : st.complete = false) :
    poll1 ext st (startMsg f) =
      Except.ok ⟨{ accum st f with opcode := f.opcode, started := true }, [], none⟩ := by
  simp [poll1, startMsg, pollComplete, accum, hc]

/-- Evaluation of a mid-sequence continuation fragment: either the
accumulated buffer fails the bounded incremental UTF-8 check, or the step is
pure accumulation. -/
theorem poll1_cont_eq (ext : Ext) (st : Fragmented) (f : Frame)
    (hs : st.started = true) (hc : st.complete = false) :
    poll1 ext st (contMsg f) =
      if (accum st f).opcode = OpCode.Text ∧ (accum st f).total_length < 8096 then
        if utf8validate (accum st f).buf then
          Except.ok ⟨accum st f, [], none⟩
        else Except.error ("error during UTF-8 validation", accum st f)
      else Except.ok ⟨accum st f, [], none⟩ := by
  simp only [poll1, contMsg, hs, hc, Bool.not_true, Bool.false_or,
    Bool.false_eq_true, if_false]
  split
  · split
    · simp [pollComplete, accum, hs, hc]
    · rfl
  · simp [pollComplete, accum, hs, hc]

/-- Inversion for an accepted continuation fragment: the session must have
been mid-sequence and the result is pure accumulation. -/
theorem poll1_cont_ok (ext : Ext) (st : Fragmented) (f : Frame) (r : StepRes)
    (h : poll1 ext st (contMsg f) = Except.ok r) :
    st.started = true ∧ st.complete = false ∧ r = ⟨accum st f, [], none⟩ := by
  cases hs : st.started with
  | false => simp [poll1, contMsg, hs] at h
  | true =>
    cases hc : st.complete with
    | true => simp [poll1, contMsg, hs, hc] at h
    | false =>
      refine ⟨rfl, rfl, ?_⟩
      rw [poll1_cont_eq ext st f hs hc] at h
      split at h
      · split at h
        · exact (Except.ok.inj h).symm
        · exact absurd h (by simp)
      · exact (Except.ok.inj h).symm

/-- Evaluation of a mid-sequence final continuation under an identity
extension chain: for a text message the fully accumulated buffer must pass
full UTF-8 validation, and on success the synthetic frame is pushed upstream
while the state is reset except for total_length. -/
theorem poll1_final_eq (ext : Ext) (hid : ∀ d, ext d = Except.ok d)
    (st : Fragmented) (f : Frame)
    (hs : st.started = true) (hc : st.complete = false) :
    poll1 ext st (finalMsg f) =
      if st.opcode = OpCode.Text then
        if validUtf8 (st.buf ++ f.application_data.getD []) then
          Except.ok ⟨⟨false, false, OpCode.Close,
              (st.total_length + f.payload_length) % U64, []⟩,
            [⟨true, st.opcode, some (st.buf ++ f.application_data.getD []),
              (st.total_length + f.payload_length) % U64⟩], none⟩
        else
          Except.error ("invalid UTF-8 in text frame",
            ⟨true, true, st.opcode,
             (st.total_length + f.payload_length) % U64,
             st.buf ++ f.application_data.getD []⟩)
      else
        Except.ok ⟨⟨false, false, OpCode.Close,
            (st.total_length + f.payload_length) % U64, []⟩,
          [⟨true, st.opcode, some (st.buf ++ f.application_data.getD []),
            (st.total_length + f.payload_length) % U64⟩], none⟩ := by
  by_cases hT : st.opcode = OpCode.Text
  · simp [poll1, finalMsg, hs, hc, pollComplete, accum, synthFrame,
      resetState, ext_chain_decode, hid, hT]
    by_cases hv : validUtf8 (st.buf ++ f.application_data.getD []) = true
    · simp [hv]
    · simp [hv]
  · by_cases hB : st.opcode = OpCode.Binary
    · simp [poll1, finalMsg, hs, hc, pollComplete, accum, synthFrame,
        resetState, ext_chain_decode, hid, hT, hB]
    · simp [poll1, finalMsg, hs, hc, pollComplete, accum, synthFrame,
        resetState, ext_chain_decode, hid, hT, hB]

/-- Inversion for an accepted final continuation under an identity extension
chain: the session was mid-sequence, the synthetic frame built from the
accumulated state is pushed upstream, and the state is reset except for
total_length. -/
theorem poll1_final_ok (ext : Ext) (hid : ∀ d, ext d = Except.ok d)
    (st : Fragmented) (f : Frame) (r : StepRes)
    (h : poll1 ext st (finalMsg f) = Except.ok r) :
    st.started = true ∧ st.complete = false ∧
    r = ⟨⟨false, false, OpCode.Close,
          (st.total_length + f.payload_length) % U64, []⟩,
         [⟨true, st.opcode, some (st.buf ++ f.application_data.getD []),
           (st.total_length + f.payload_length) % U64⟩], none⟩ := by
  cases hs : st.started with
  | false => simp [poll1, finalMsg, hs] at h
  | true =>
    cases hc : st.complete with
    | true => simp [poll1, finalMsg, hs, hc] at h
    | false =>
      refine ⟨rfl, rfl, ?_⟩
      rw [poll1_final_eq ext hid st f hs hc] at h
      split at h
      · split at h
        · exact (Except.ok.inj h).symm
        · exact absurd h (by simp)
      · exact (Except.ok.inj h).symm

end Twist

namespace Twist

/-! Claim theorems: pass-through and error-handling behaviour of the poll
loop, and the state reset after emission. -/

/-- Claim C7: a message not classified as fragment-start, continuation,
final-continuation, or anomalous-fragment is returned to the caller
unchanged, the session state is unchanged, and nothing is pushed upstream. -/
theorem claim_C7_passthrough (ext : Ext) (st : Fragmented) (m : WebSocketMsg)
    (hcls : m.cls = MsgClass.plain) :
    poll1 ext st m = Except.ok ⟨st, [], some m⟩ := by
  simp [poll1, hcls]

/-- Witness for claim C7 at a concrete pass-through message and state. -/
theorem claim_C7_passthrough_witness :
    poll1 extId Fragmented.new ⟨MsgClass.plain, none⟩ =
      Except.ok ⟨Fragmented.new, [], some ⟨MsgClass.plain, none⟩⟩ :=
  claim_C7_passthrough extId Fragmented.new ⟨MsgClass.plain, none⟩ rfl

/-- Claim C8: an anomalous fragment is a protocol error exactly when the
session is mid-sequence; otherwise it is passed through unchanged. -/
theorem claim_C8_badfragment (ext : Ext) (st : Fragmented) (m : WebSocketMsg)
    (hcls : m.cls = MsgClass.badFragment) :
    (st.started = true ∧ st.complete = false →
      poll1 ext st m =
        Except.error ("invalid opcode for continuation fragment", st)) ∧
    (st.started = false ∨ st.complete = true →
      poll1 ext st m = Except.ok ⟨st, [], some m⟩) := by
  constructor
  · rintro ⟨h1, h2⟩
    simp [poll1, hcls, h1, h2]
  · rintro (h | h) <;> simp [poll1, hcls, h]

/-- Witness for claim C8: error while mid-sequence, pass-through while idle. -/
theorem claim_C8_badfragment_witness :
    (poll1 extId ⟨true, false, OpCode.Binary, 1, [1]⟩
        ⟨MsgClass.badFragment, none⟩ =
      Except.error ("invalid opcode for continuation fragment",
        ⟨true, false, OpCode.Binary, 1, [1]⟩)) ∧
    (poll1 extId Fragmented.new ⟨MsgClass.badFragment, none⟩ =
      Except.ok ⟨Fragmented.new, [], some ⟨MsgClass.badFragment, none⟩⟩) :=
  ⟨(claim_C8_badfragment extId ⟨true, false, OpCode.Binary, 1, [1]⟩
      ⟨MsgClass.badFragment, none⟩ rfl).1 ⟨rfl, rfl⟩,
   (claim_C8_badfragment extId Fragmented.new
      ⟨MsgClass.badFragment, none⟩ rfl).2 (Or.inl rfl)⟩

/-- Claim C4: while no sequence is open (or one is already complete), a
continuation fails with "invalid fragment frame received" and a final
continuation fails with "invalid fragment complete frame received", in both
cases leaving the session state unchanged (the error carries it untouched). -/
theorem claim_C4_out_of_sequence (ext : Ext) (st : Fragmented)
    (m : WebSocketMsg) (h : st.started = false ∨ st.complete = true) :
    (m.cls = MsgClass.fragment →
      poll1 ext st m =
        Except.error ("invalid fragment frame received", st)) ∧
    (m.cls = MsgClass.fragmentComplete →
      poll1 ext st m =
        Except.error ("invalid fragment complete frame received", st)) := by
  constructor <;> intro hcls <;> rcases h with h | h <;> simp [poll1, hcls, h]

/-- Witness for claim C4 at the initial Idle state. -/
theorem claim_C4_out_of_sequence_witness :
    (poll1 extId Fragmented.new
        ⟨MsgClass.fragment, some ⟨false, OpCode.Continue, some [1], 1⟩⟩ =
      Except.error ("invalid fragment frame received", Fragmented.new)) ∧
    (poll1 extId Fragmented.new
        ⟨MsgClass.fragmentComplete, some ⟨true, OpCode.Continue, some [1], 1⟩⟩ =
      Except.error ("invalid fragment complete frame received", Fragmented.new)) :=
  ⟨(claim_C4_out_of_sequence extId Fragmented.new
      ⟨MsgClass.fragment, some ⟨false, OpCode.Continue, some [1], 1⟩⟩
      (Or.inl rfl)).1 rfl,
   (claim_C4_out_of_sequence extId Fragmented.new
      ⟨MsgClass.fragmentComplete, some ⟨true, OpCode.Continue, some [1], 1⟩⟩
      (Or.inl rfl)).2 rfl⟩

/-- Counterexample to claim C9: a fragment-start message with no extractable
base frame is NOT passed through unchanged — the poll fails with the protocol
error "invalid fragment start frame received". -/
theorem claim_C9_counterexample :
    poll1 extId Fragmented.new ⟨MsgClass.fragmentStart, none⟩ =
      Except.error ("invalid fragment start frame received", Fragmented.new) ∧
    poll1 extId Fragmented.new ⟨MsgClass.fragmentStart, none⟩ ≠
      Except.ok ⟨Fragmented.new, [], some ⟨MsgClass.fragmentStart, none⟩⟩ := by
  constructor
  · rfl
  · decide

/-- Claim C9 as amended: a fragment-start message exposing no base frame
makes the pull fail with the protocol error "invalid fragment start frame
received" (state carried unchanged), rather than being passed through. -/
theorem claim_C9_amended (ext : Ext) (st : Fragmented) (m : WebSocketMsg)
    (hcls : m.cls = MsgClass.fragmentStart) (hb : m.base = none) :
    poll1 ext st m =
      Except.error ("invalid fragment start frame received", st) := by
  simp [poll1, hcls, hb]

/-- Witness for the amended claim C9 at a concrete no-base message. -/
theorem claim_C9_amended_witness :
    poll1 extId Fragmented.new ⟨MsgClass.fragmentStart, none⟩ =
      Except.error ("invalid fragment start frame received", Fragmented.new) :=
  claim_C9_amended extId Fragmented.new ⟨MsgClass.fragmentStart, none⟩ rfl rfl

/-- Counterexample to claim C3: a second fragment-start arriving while a
sequence is open (started = true) does NOT fail with an out-of-sequence
error — it is accepted, the captured opcode is overwritten (Binary becomes
Text here) and its payload is appended to the already accumulated buffer. -/
theorem claim_C3_counterexample :
    pollRun extId Fragmented.new
      [startMsg ⟨false, OpCode.Binary, some [1], 1⟩,
       startMsg ⟨false, OpCode.Text, some [2], 1⟩] =
      Except.ok (⟨true, false, OpCode.Text, 2, [1, 2]⟩, [], []) := by
  decide

/-- Claim C3 as amended: a fragment-start with a base frame arriving while a
sequence is open (started = true, complete = false) is accepted without any
error: the captured opcode is overwritten with the new frame's opcode, the
frame's payload length and application data are appended to the running
accumulation, and nothing is emitted. -/
theorem claim_C3_amended (ext : Ext) (st : Fragmented) (f : Frame)
    (_hs : st.started = true) (hc : st.complete = false) :
    poll1 ext st (startMsg f) =
      Except.ok ⟨⟨true, false, f.opcode,
        (st.total_length + f.payload_length) % U64,
        st.buf ++ f.application_data.getD []⟩, [], none⟩ := by
  rw [poll1_start_ok ext st f hc]
  simp [accum, hc]

/-- Witness for the amended claim C3 at a concrete open-sequence state. -/
theorem claim_C3_amended_witness :
    poll1 extId ⟨true, false, OpCode.Binary, 1, [1]⟩
        (startMsg ⟨false, OpCode.Text, some [2], 1⟩) =
      Except.ok ⟨⟨true, false, OpCode.Text, (1 + 1) % U64, [1] ++ [2]⟩,
        [], none⟩ :=
  claim_C3_amended extId ⟨true, false, OpCode.Binary, 1, [1]⟩
    ⟨false, OpCode.Text, some [2], 1⟩ rfl rfl

/-- Claim C2 is a code bug: total_length is NOT reset after a successful
emission (lines 206-209 reset only started, complete, opcode and buf), so
the state after emitting a 5-byte message differs from the initial Idle
state, and a second back-to-back fragmented message is emitted with a
contaminated payload_length of 10 instead of 5. -/
theorem claim_C2_total_length_not_reset :
    (pollRun extId Fragmented.new
      [startMsg ⟨false, OpCode.Binary, some [1, 2], 2⟩,
       finalMsg ⟨true, OpCode.Continue, some [3, 4, 5], 3⟩] =
      Except.ok (⟨false, false, OpCode.Close, 5, []⟩,
        [⟨true, OpCode.Binary, some [1, 2, 3, 4, 5], 5⟩], [])) ∧
    (⟨false, false, OpCode.Close, 5, []⟩ : Fragmented) ≠ Fragmented.new ∧
    (pollRun extId Fragmented.new
      [startMsg ⟨false, OpCode.Binary, some [1, 2], 2⟩,
       finalMsg ⟨true, OpCode.Continue, some [3, 4, 5], 3⟩,
       startMsg ⟨false, OpCode.Binary, some [1, 2], 2⟩,
       finalMsg ⟨true, OpCode.Continue, some [3, 4, 5], 3⟩] =
      Except.ok (⟨false, false, OpCode.Close, 10, []⟩,
        [⟨true, OpCode.Binary, some [1, 2, 3, 4, 5], 5⟩,
         ⟨true, OpCode.Binary, some [1, 2, 3, 4, 5], 10⟩], [])) := by
  refine ⟨by decide, by decide, by decide⟩

end Twist

namespace Twist

/-- The extension decode chain only ever replaces a frame's application
data: fin, opcode and payload_length survive a successful decode. -/
theorem ext_chain_decode_ok_shape (ext : Ext) (f g : Frame)
    (h : ext_chain_decode ext f = Except.ok g) :
    g.fin = f.fin ∧ g.opcode = f.opcode ∧ g.payload_length = f.payload_length := by
  unfold ext_chain_decode at h
  split at h
  · cases he : ext f.application_data with
    | ok d =>
      rw [he] at h
      have hg := (Except.ok.inj h).symm
      subst hg
      exact ⟨rfl, rfl, rfl⟩
    | error e => rw [he] at h; exact absurd h (by simp)
  · have hg := (Except.ok.inj h).symm
    subst hg
    exact ⟨rfl, rfl, rfl⟩

/-- Claim C5: on a continuation accepted while the captured opcode is text
and the updated total_length is below 8096, the entire accumulated buffer is
run through incremental UTF-8 validation: a failure makes the pull fail with
the protocol error "error during UTF-8 validation" (the accumulation already
performed), and conversely any accepted continuation in that regime had a
buffer passing the incremental check. -/
theorem claim_C5_incremental_utf8 (ext : Ext) (st : Fragmented) (f : Frame)
    (hop : st.opcode = OpCode.Text)
    (hlen : (st.total_length + f.payload_length) % U64 < 8096) :
    (st.started = true → st.complete = false →
      utf8validate (st.buf ++ f.application_data.getD []) = false →
      poll1 ext st (contMsg f) =
        Except.error ("error during UTF-8 validation", accum st f)) ∧
    (∀ r, poll1 ext st (contMsg f) = Except.ok r →
      utf8validate (st.buf ++ f.application_data.getD []) = true) := by
  constructor
  · intro hs hc hv
    rw [poll1_cont_eq ext st f hs hc]
    simp [accum, hop, hlen, hv]
  · intro r hr
    rcases poll1_cont_ok ext st f r hr with ⟨hs, hc, -⟩
    by_contra hv
    rw [Bool.not_eq_true] at hv
    rw [poll1_cont_eq ext st f hs hc] at hr
    simp [accum, hop, hlen, hv] at hr

/-- Witness for claim C5: the invalid byte 0xFF arriving in a small text
continuation is rejected; a valid continuation passes the check. -/
theorem claim_C5_incremental_utf8_witness :
    (poll1 extId ⟨true, false, OpCode.Text, 1, [0x61]⟩
        (contMsg ⟨false, OpCode.Continue, some [0xFF], 1⟩) =
      Except.error ("error during UTF-8 validation",
        ⟨true, false, OpCode.Text, 2, [0x61, 0xFF]⟩)) ∧
    utf8validate ([0x61] ++ [0x62]) = true :=
  ⟨(claim_C5_incremental_utf8 extId ⟨true, false, OpCode.Text, 1, [0x61]⟩
      ⟨false, OpCode.Continue, some [0xFF], 1⟩ rfl (by decide)).1
      rfl rfl (by decide),
   (claim_C5_incremental_utf8 extId ⟨true, false, OpCode.Text, 1, [0x61]⟩
      ⟨false, OpCode.Continue, some [0x62], 1⟩ rfl (by decide)).2
      ⟨⟨true, false, OpCode.Text, 2, [0x61, 0x62]⟩, [], none⟩ (by decide)⟩

/-- Claim C6: once a message is fully assembled (started and complete), the
extension decode chain runs on the synthetic frame, and whenever the
resulting frame is text its full (possibly extension-mutated) application
data is UTF-8 validated with no size bound: invalid data fails the flush
with "invalid UTF-8 in text frame" (nothing is emitted and the state is
carried unchanged), and valid data is emitted exactly as decoded. -/
theorem claim_C6_final_utf8 (ext : Ext) (st : Fragmented) (F : Frame)
    (d : List Nat) (hs : st.started = true) (hc : st.complete = true)
    (hext : ext_chain_decode ext (synthFrame st) = Except.ok F)
    (hop : F.opcode = OpCode.Text) (hd : F.application_data = some d) :
    (validUtf8 d = false →
      pollComplete ext st =
        Except.error ("invalid UTF-8 in text frame", st)) ∧
    (validUtf8 d = true →
      pollComplete ext st = Except.ok (resetState st, [F])) := by
  have hfin : F.fin = true := by
    rw [(ext_chain_decode_ok_shape ext (synthFrame st) F hext).1]
    rfl
  constructor <;> intro hv <;>
    simp [pollComplete, hs, hc, hext, hop, hfin, hd, hv]

/-- Witness for claim C6: an extension chain rewriting the payload to the
invalid byte 0xFF makes the flush fail even though the raw buffer was valid,
and with the identity chain a valid text payload is emitted. -/
theorem claim_C6_final_utf8_witness :
    (pollComplete (fun _ => Except.ok (some [0xFF]))
        ⟨true, true, OpCode.Text, 3, [0x61]⟩ =
      Except.error ("invalid UTF-8 in text frame",
        ⟨true, true, OpCode.Text, 3, [0x61]⟩)) ∧
    (pollComplete extId ⟨true, true, OpCode.Text, 1, [0x61]⟩ =
      Except.ok (⟨false, false, OpCode.Close, 1, []⟩,
        [⟨true, OpCode.Text, some [0x61], 1⟩])) :=
  ⟨(claim_C6_final_utf8 (fun _ => Except.ok (some [0xFF]))
      ⟨true, true, OpCode.Text, 3, [0x61]⟩
      ⟨true, OpCode.Text, some [0xFF], 3⟩ [0xFF] rfl rfl (by decide) rfl rfl).1
      (by decide),
   (claim_C6_final_utf8 extId ⟨true, true, OpCode.Text, 1, [0x61]⟩
      ⟨true, OpCode.Text, some [0x61], 1⟩ [0x61] rfl rfl (by decide) rfl rfl).2
      (by decide)⟩

end Twist

namespace Twist

/-- Claim C10: every accepted fragment adds the frame's declared
payload_length to total_length unconditionally (u64 arithmetic) while the
buffer grows only by the application data actually present — absent data
leaves the buffer unchanged — and the synthetic frame emitted for a
completed message carries the accumulated total_length, which need not equal
the length of its application data (concrete decoupling run included). -/
theorem claim_C10_accumulation (ext : Ext) (st : Fragmented) (f : Frame) :
    (∀ r, poll1 ext st (contMsg f) = Except.ok r →
      r.state.total_length = (st.total_length + f.payload_length) % U64 ∧
      r.state.buf = st.buf ++ f.application_data.getD [] ∧
      (f.application_data = none → r.state.buf = st.buf)) ∧
    (st.complete = false →
      poll1 ext st (startMsg f) =
        Except.ok ⟨⟨true, false, f.opcode,
          (st.total_length + f.payload_length) % U64,
          st.buf ++ f.application_data.getD []⟩, [], none⟩) ∧
    ((∀ dd, ext dd = Except.ok dd) →
      ∀ r, poll1 ext st (finalMsg f) = Except.ok r →
      r.sent = [⟨true, st.opcode,
        some (st.buf ++ f.application_data.getD []),
        (st.total_length + f.payload_length) % U64⟩]) ∧
    (pollRun extId Fragmented.new
        [startMsg ⟨false, OpCode.Binary, none, 5⟩,
         finalMsg ⟨true, OpCode.Continue, some [7], 1⟩] =
      Except.ok (⟨false, false, OpCode.Close, 6, []⟩,
        [⟨true, OpCode.Binary, some [7], 6⟩], []) ∧
      (6 : Nat) ≠ ([7] : List Nat).length) := by
  refine ⟨?_, ?_, ?_, by decide, by decide⟩
  · intro r hr
    rcases poll1_cont_ok ext st f r hr with ⟨-, -, hr'⟩
    subst hr'
    refine ⟨rfl, rfl, ?_⟩
    intro hnone
    simp [accum, hnone]
  · intro hc
    rw [poll1_start_ok ext st f hc]
    simp [accum, hc]
  · intro hid r hr
    rcases poll1_final_ok ext hid st f r hr with ⟨-, -, hr'⟩
    subst hr'
    rfl

/-- Witness for claim C10: a continuation with absent application data grows
total_length but not the buffer; a start and a final step accumulate; the
decoupling run emits payload_length 6 with a 1-byte application data. -/
theorem claim_C10_accumulation_witness :
    ((⟨⟨true, false, OpCode.Binary, 5, [9]⟩, [], none⟩ : StepRes).state.total_length
        = (1 + 4) % U64 ∧
      (⟨⟨true, false, OpCode.Binary, 5, [9]⟩, [], none⟩ : StepRes).state.buf
        = [9] ++ (none : Option (List Nat)).getD [] ∧
      ((none : Option (List Nat)) = none →
        (⟨⟨true, false, OpCode.Binary, 5, [9]⟩, [], none⟩ : StepRes).state.buf = [9])) ∧
    (poll1 extId Fragmented.new (startMsg ⟨false, OpCode.Binary, some [1], 2⟩) =
      Except.ok ⟨⟨true, false, OpCode.Binary, (0 + 2) % U64, [] ++ [1]⟩, [], none⟩) ∧
    ((⟨⟨false, false, OpCode.Close, 5, []⟩,
        [⟨true, OpCode.Binary, some [9, 8], 5⟩], none⟩ : StepRes).sent =
      [⟨true, OpCode.Binary, some ([9] ++ [8]), (1 + 4) % U64⟩]) :=
  ⟨(claim_C10_accumulation extId ⟨true, false, OpCode.Binary, 1, [9]⟩
      ⟨false, OpCode.Continue, none, 4⟩).1
      ⟨⟨true, false, OpCode.Binary, 5, [9]⟩, [], none⟩ (by decide),
   (claim_C10_accumulation extId Fragmented.new
      ⟨false, OpCode.Binary, some [1], 2⟩).2.1 rfl,
   (claim_C10_accumulation extId ⟨true, false, OpCode.Binary, 1, [9]⟩
      ⟨true, OpCode.Continue, some [8], 4⟩).2.2.1 (fun dd => rfl)
      ⟨⟨false, false, OpCode.Close, 5, []⟩,
        [⟨true, OpCode.Binary, some [9, 8], 5⟩], none⟩ (by decide)⟩

end Twist

namespace Twist

/-- Sum of the declared payload lengths of a list of fragment frames. -/
def fragLenSum (fs : List Frame) : Nat := (fs.map Frame.payload_length).sum

/-- Concatenation, in arrival order, of the application data of a list of
fragment frames (absent data contributes nothing). -/
def fragDataConcat (fs : List Frame) : List Nat :=
  (fs.map (fun f => f.application_data.getD [])).flatten

/-- Unfolding of pollRun on a first message. -/
theorem pollRun_cons (ext : Ext) (st : Fragmented) (m : WebSocketMsg)
    (ms : List WebSocketMsg) :
    pollRun ext st (m :: ms) =
      match poll1 ext st m with
      | Except.error e => Except.error e
      | Except.ok r =>
        match pollRun ext r.state ms with
        | Except.error e => Except.error e
        | Except.ok (st', sent, ys) =>
          Except.ok (st', r.sent ++ sent, r.yielded.toList ++ ys) := rfl

/-- Unfolding of pollRun on a first message whose poll iteration succeeded. -/
theorem pollRun_cons_ok (ext : Ext) (st s0 : Fragmented) (m : WebSocketMsg)
    (ms : List WebSocketMsg) (sent0 : List Frame) (y0 : Option WebSocketMsg)
    (hp : poll1 ext st m = Except.ok ⟨s0, sent0, y0⟩) :
    pollRun ext st (m :: ms) =
      match pollRun ext s0 ms with
      | Except.error e => Except.error e
      | Except.ok (st2, sent, ys) =>
        Except.ok (st2, sent0 ++ sent, y0.toList ++ ys) := by
  rw [pollRun_cons, hp]

/-- Processing N continuations followed by a final continuation from any
mid-sequence state, with an identity extension chain and no u64 overflow,
emits exactly one frame: the accumulated buffer extended by all fragments\'
data, with payload length the running total plus all declared lengths. -/
theorem pollRun_conts (ext : Ext) (hid : ∀ d, ext d = Except.ok d)
    (fl : Frame) :
    ∀ (fs : List Frame) (st st2 : Fragmented) (sent : List Frame)
      (ys : List WebSocketMsg),
    st.started = true → st.complete = false →
    st.total_length + (fragLenSum fs + fl.payload_length) < U64 →
    pollRun ext st (fs.map contMsg ++ [finalMsg fl]) =
      Except.ok (st2, sent, ys) →
    sent = [⟨true, st.opcode,
      some (st.buf ++ (fragDataConcat fs ++ fl.application_data.getD [])),
      st.total_length + (fragLenSum fs + fl.payload_length)⟩] ∧ ys = [] := by
  intro fs
  induction fs with
  | nil =>
    intro st st2 sent ys hs hc hsum hrun
    simp only [List.map_nil, List.nil_append] at hrun
    have hmod : (st.total_length + fl.payload_length) % U64 =
        st.total_length + fl.payload_length := by
      apply Nat.mod_eq_of_lt
      simp only [fragLenSum, List.map_nil, List.sum_nil, Nat.zero_add] at hsum
      omega
    cases hp : poll1 ext st (finalMsg fl) with
    | error e =>
      rw [pollRun_cons, hp] at hrun
      exact absurd hrun (by simp)
    | ok r =>
      rcases poll1_final_ok ext hid st fl r hp with ⟨-, -, hr⟩
      subst hr
      rw [pollRun_cons_ok ext st _ (finalMsg fl) [] _ _ hp] at hrun
      simp only [pollRun] at hrun
      cases hrun
      constructor
      · simp [fragDataConcat, fragLenSum, hmod]
      · simp
  | cons f fs ih =>
    intro st st2 sent ys hs hc hsum hrun
    simp only [List.map_cons, List.cons_append] at hrun
    have hsumcons : fragLenSum (f :: fs) =
        f.payload_length + fragLenSum fs := by
      simp [fragLenSum]
    have hmod : (st.total_length + f.payload_length) % U64 =
        st.total_length + f.payload_length := by
      apply Nat.mod_eq_of_lt
      omega
    cases hp : poll1 ext st (contMsg f) with
    | error e =>
      rw [pollRun_cons, hp] at hrun
      exact absurd hrun (by simp)
    | ok r =>
      rcases poll1_cont_ok ext st f r hp with ⟨-, -, hr⟩
      subst hr
      rw [pollRun_cons_ok ext st _ (contMsg f) _ [] none hp] at hrun
      cases hq : pollRun ext (accum st f) (fs.map contMsg ++ [finalMsg fl]) with
      | error e =>
        rw [hq] at hrun
        exact absurd hrun (by simp)
      | ok out =>
        obtain ⟨st3, sent3, ys3⟩ := out
        rw [hq] at hrun
        simp only [List.nil_append, Option.toList_none] at hrun
        obtain ⟨hsent3, hys3⟩ := ih (accum st f) st3 sent3 ys3
          (by simp [accum, hs]) (by simp [accum, hc])
          (by simp only [accum]; rw [hmod]; omega) hq
        cases hrun
        subst hsent3
        subst hys3
        constructor
        · simp only [accum, hmod, fragDataConcat, fragLenSum, List.map_cons,
            List.flatten_cons, List.sum_cons, List.append_assoc,
            Frame.mk.injEq, Option.some.injEq, List.cons.injEq, and_true,
            true_and]
          omega
        · rfl

end Twist

namespace Twist

/-- Claim C1: a fragment-start, N continuations and a final continuation
accepted by a session starting in the initial Idle state make the next flush
emit (inside pollComplete, before the flush is delegated upstream) exactly
one synthetic frame with fin = true, the start frame's opcode, application
data the exact concatenation of all fragments' application data in arrival
order, and payload length the sum of all fragments' declared payload lengths
(no u64 overflow assumed); nothing is yielded to the caller on the way. -/
theorem claim_C1_reassembly (ext : Ext) (hid : ∀ d, ext d = Except.ok d)
    (f0 fl : Frame) (fs : List Frame) (st2 : Fragmented)
    (sent : List Frame) (ys : List WebSocketMsg)
    (hsum : f0.payload_length + (fragLenSum fs + fl.payload_length) < U64)
    (hrun : pollRun ext Fragmented.new
      (startMsg f0 :: (fs.map contMsg ++ [finalMsg fl])) =
      Except.ok (st2, sent, ys)) :
    sent = [⟨true, f0.opcode,
      some (f0.application_data.getD [] ++
        (fragDataConcat fs ++ fl.application_data.getD [])),
      f0.payload_length + (fragLenSum fs + fl.payload_length)⟩] ∧ ys = [] := by
  have hmod0 : (0 + f0.payload_length) % U64 = f0.payload_length := by
    rw [Nat.zero_add]
    exact Nat.mod_eq_of_lt (by omega)
  rw [pollRun_cons_ok ext Fragmented.new _ (startMsg f0) _ [] none
    (poll1_start_ok ext Fragmented.new f0 rfl)] at hrun
  cases hq : pollRun ext
      { accum Fragmented.new f0 with opcode := f0.opcode, started := true }
      (fs.map contMsg ++ [finalMsg fl]) with
  | error e =>
    rw [hq] at hrun
    exact absurd hrun (by simp)
  | ok out =>
    obtain ⟨st3, sent3, ys3⟩ := out
    rw [hq] at hrun
    simp only [List.nil_append, Option.toList_none] at hrun
    obtain ⟨hsent3, hys3⟩ := pollRun_conts ext hid fl fs _ st3 sent3 ys3
      rfl rfl
      (by simp only [accum, Fragmented.new]; rw [hmod0]; omega) hq
    cases hrun
    subst hsent3
    subst hys3
    constructor
    · simp only [List.nil_append, accum, Fragmented.new]
      rw [hmod0]
    · rfl

/-- Witness for claim C1: start(text, "He"), continuation("llo"),
final-continuation(" world") emits one text frame "Hello world" with payload
length 11 and yields nothing. -/
theorem claim_C1_reassembly_witness :
    [(⟨true, OpCode.Text,
        some [72, 101, 108, 108, 111, 32, 119, 111, 114, 108, 100],
        11⟩ : Frame)] =
      [⟨true, OpCode.Text,
        some ([72, 101] ++
          (fragDataConcat
              [⟨false, OpCode.Continue, some [108, 108, 111], 3⟩] ++
            [32, 119, 111, 114, 108, 100])),
        2 + (fragLenSum
              [⟨false, OpCode.Continue, some [108, 108, 111], 3⟩] + 6)⟩] ∧
    ([] : List WebSocketMsg) = [] :=
  claim_C1_reassembly extId (fun d => rfl)
    ⟨false, OpCode.Text, some [72, 101], 2⟩
    ⟨true, OpCode.Continue, some [32, 119, 111, 114, 108, 100], 6⟩
    [⟨false, OpCode.Continue, some [108, 108, 111], 3⟩]
    ⟨false, false, OpCode.Close, 11, []⟩
    [⟨true, OpCode.Text,
      some [72, 101, 108, 108, 111, 32, 119, 111, 114, 108, 100], 11⟩]
    [] (by decide) (by decide)

end Twist
